import Mathlib

/-!
Verification of the two MkDocs build hooks of this repository:

* `hooks/comments-toc.py` — `on_page_content` appends a "Comments" entry to
  the children of the first top-level TOC entry when the page metadata has a
  truthy `comments` key.
* `hooks/copyright.py` — `on_config` overwrites `config.copyright` with a
  string interpolating the current calendar year.

The Python objects are embedded shallowly: the page, its table of contents
(`mkdocs.structure.toc`), its front-matter metadata mapping and the site
configuration become Lean structures; the ambient wall clock of
`datetime.now().year` becomes an explicit `year : Nat` parameter; in-place
mutation becomes explicit state passing (each hook returns the updated
object).
-/

/-- A front-matter metadata value, with just enough structure to carry
Python truthiness (`page.meta.get("comments")` is tested for truthiness). -/
inductive PyVal where
  | vNone : PyVal
  | vBool : Bool → PyVal
  | vInt : Int → PyVal
  | vStr : String → PyVal
deriving DecidableEq

/-- Python truthiness of a metadata value. -/
def PyVal.truthy : PyVal → Bool
  | .vNone => false
  | .vBool b => b
  | .vInt n => n != 0
  | .vStr s => s != ""

/-- `dict.get k`: first binding of `k` in the metadata mapping, if any. -/
def metaGet (m : List (String × PyVal)) (k : String) : Option PyVal :=
  (m.find? (fun p => p.1 == k)).map (fun p => p.2)

/-- Truthiness of a `dict.get` result: Python `None` (a missing key) is falsy. -/
def optTruthy : Option PyVal → Bool
  | none => false
  | some v => v.truthy

/-- `mkdocs.structure.toc.AnchorLink`: one navigable TOC node with a display
title, an anchor identifier, a nesting level and an ordered child sequence. -/
structure AnchorLink where
  title : String
  id : String
  level : Nat
  children : List AnchorLink

/-- The `AnchorLink(title, id, level)` constructor: a freshly constructed
entry starts with an empty child sequence. -/
def AnchorLink.new (title id : String) (level : Nat) : AnchorLink :=
  ⟨title, id, level, []⟩

/-- `mkdocs.structure.toc.TableOfContents`: the ordered sequence of top-level
heading entries of a page. It is falsy exactly when `items` is empty. -/
structure TableOfContents where
  items : List AnchorLink

/-- The slice of a MkDocs page the hook touches: `page.toc` (`none` models an
absent/None table of contents) and `page.meta` (the front-matter mapping). -/
structure Page where
  toc : Option TableOfContents
  meta : List (String × PyVal)

/-- The slice of the MkDocs config the hook touches: the `copyright` field,
plus `extra` standing for every other configuration setting. -/
structure Config where
  copyright : String
  extra : List (String × PyVal)

/-- `hooks/comments-toc.py` `on_page_content(html, page, config, files)`:
returns unchanged when `page.toc` is falsy, `page.toc.items` is empty, or
`page.meta.get("comments")` is not truthy; otherwise appends
`AnchorLink("Comments", "comments", 2)` to `page.toc.items[0].children`. -/
def on_page_content (html : String) (page : Page) (config : Config)
    (files : List String) : Page :=
  match page.toc with
  | none => page
  | some toc =>
    match toc.items with
    | [] => page
    | first :: rest =>
      if optTruthy (metaGet page.meta "comments") then
        { page with toc := some ⟨{ first with
            children := first.children ++
              [AnchorLink.new "Comments" "comments" 2] } :: rest⟩ }
      else page

/-- `hooks/copyright.py` `on_config(config, **kwargs)`: overwrites
`config.copyright` with the interpolated template; `year` stands for
`datetime.now().year`, the host clock's current year at call time. -/
def on_config (year : Nat) (config : Config) : Config :=
  { config with copyright := "Copyright © " ++ toString year ++
      " ESPHome - A project from the <a target=\"_blank\" href=\"https://www.openhomefoundation.org/\">Open Home Foundation</a>" }

/-- Computation lemma shared by the TOC theorems: on a page with a non-empty
TOC and truthy `comments` metadata, the hook rebuilds the page with the
"Comments" link appended to the first entry's children. -/
lemma on_page_content_eq (html : String) (config : Config)
    (files : List String) (meta : List (String × PyVal))
    (first : AnchorLink) (rest : List AnchorLink)
    (hmeta : optTruthy (metaGet meta "comments") = true) :
    on_page_content html ⟨some ⟨first :: rest⟩, meta⟩ config files =
      ⟨some ⟨{ first with children := first.children ++
          [AnchorLink.new "Comments" "comments" 2] } :: rest⟩, meta⟩ := by
  simp [on_page_content, hmeta]

/-- Numeric value of a decimal digit character. -/
def charVal (c : Char) : Nat := c.toNat - 48

/-- Value of a list of decimal digit characters, most significant first. -/
def numOfChars : List Char → Nat
  | [] => 0
  | c :: cs => charVal c * 10 ^ cs.length + numOfChars cs

lemma charVal_digitChar {d : Nat} (h : d < 10) :
    charVal (Nat.digitChar d) = d := by
  interval_cases d <;> rfl

lemma numOfChars_toDigitsCore :
    ∀ (fuel n : Nat) (ds : List Char), n < 10 ^ fuel →
      numOfChars (Nat.toDigitsCore 10 fuel n ds) =
        n * 10 ^ ds.length + numOfChars ds := by
  intro fuel
  induction fuel with
  | zero =>
    intro n ds h
    have hn : n = 0 := by simpa using h
    subst hn
    simp [Nat.toDigitsCore]
  | succ fuel ih =>
    intro n ds h
    by_cases h0 : n / 10 = 0
    · have hn : n < 10 := by omega
      simp only [Nat.toDigitsCore, h0, if_true]
      simp only [numOfChars]
      rw [charVal_digitChar (Nat.mod_lt _ (by norm_num)),
        Nat.mod_eq_of_lt hn]
    · have hlt : n / 10 < 10 ^ fuel := by
        rw [Nat.div_lt_iff_lt_mul (by norm_num)]
        calc n < 10 ^ (fuel + 1) := h
          _ = 10 ^ fuel * 10 := by ring
      simp only [Nat.toDigitsCore, h0, if_false]
      rw [ih (n / 10) _ hlt]
      simp only [numOfChars, List.length_cons]
      rw [charVal_digitChar (Nat.mod_lt _ (by norm_num))]
      have hdm : n / 10 * 10 + n % 10 = n := by
        rw [Nat.mul_comm]
        exact Nat.div_add_mod n 10
      calc n / 10 * 10 ^ (ds.length + 1) +
            (n % 10 * 10 ^ ds.length + numOfChars ds)
          = (n / 10 * 10 + n % 10) * 10 ^ ds.length + numOfChars ds := by
            ring
        _ = n * 10 ^ ds.length + numOfChars ds := by rw [hdm]

lemma numOfChars_toDigits (n : Nat) :
    numOfChars (Nat.toDigits 10 n) = n := by
  have h : n < 10 ^ (n + 1) :=
    lt_of_lt_of_le (Nat.lt_pow_self (by norm_num) n)
      (Nat.pow_le_pow_right (by norm_num) (Nat.le_succ n))
  have := numOfChars_toDigitsCore (n + 1) n [] h
  simpa [Nat.toDigits, numOfChars] using this

lemma natRepr_injective : Function.Injective Nat.repr := by
  intro a b h
  have hdata : Nat.toDigits 10 a = Nat.toDigits 10 b := by
    have := congrArg String.data h
    simpa [Nat.repr, List.asString] using this
  calc a = numOfChars (Nat.toDigits 10 a) := (numOfChars_toDigits a).symm
    _ = numOfChars (Nat.toDigits 10 b) := by rw [hdata]
    _ = b := numOfChars_toDigits b


/-- C1: for every config, `on_config` sets `config.copyright` to the fixed
template interpolated with the current year; when the current year is 2024
the result is exactly the expected literal string. -/
theorem copyright_sets_template (config : Config) :
    (∀ year : Nat, (on_config year config).copyright =
      "Copyright © " ++ toString year ++
        " ESPHome - A project from the <a target=\"_blank\" href=\"https://www.openhomefoundation.org/\">Open Home Foundation</a>") ∧
    (on_config 2024 config).copyright =
      "Copyright © 2024 ESPHome - A project from the <a target=\"_blank\" href=\"https://www.openhomefoundation.org/\">Open Home Foundation</a>" := by
  refine ⟨fun year => rfl, ?_⟩
  rfl

/-- C2: on a page whose TOC has at least one top-level entry and whose
metadata has a truthy `comments` key, `on_page_content` appends exactly one
entry — title "Comments", anchor "comments", level 2 — to the end of the
first top-level entry's children, leaving everything else as it was. -/
theorem toc_appends_comments (html : String) (config : Config)
    (files : List String) (meta : List (String × PyVal))
    (first : AnchorLink) (rest : List AnchorLink)
    (hmeta : optTruthy (metaGet meta "comments") = true) :
    on_page_content html ⟨some ⟨first :: rest⟩, meta⟩ config files =
      ⟨some ⟨{ first with children := first.children ++
          [AnchorLink.new "Comments" "comments" 2] } :: rest⟩, meta⟩ :=
  on_page_content_eq html config files meta first rest hmeta

theorem toc_appends_comments_witness :
    optTruthy (metaGet [("comments", PyVal.vBool true)] "comments") = true ∧
    on_page_content "" ⟨some ⟨[⟨"Intro", "intro", 1, []⟩]⟩,
        [("comments", PyVal.vBool true)]⟩ ⟨"", []⟩ [] =
      ⟨some ⟨[⟨"Intro", "intro", 1,
          [AnchorLink.new "Comments" "comments" 2]⟩]⟩,
        [("comments", PyVal.vBool true)]⟩ :=
  ⟨rfl, toc_appends_comments "" ⟨"", []⟩ [] _ _ _ rfl⟩

/-- C3: when the page's TOC is absent, or has no top-level entries, or the
metadata has no truthy `comments` key, `on_page_content` returns the page
unchanged. -/
theorem toc_noop (html : String) (config : Config) (files : List String)
    (page : Page)
    (h : page.toc = none ∨ (∃ t, page.toc = some t ∧ t.items = []) ∨
      optTruthy (metaGet page.meta "comments") = false) :
    on_page_content html page config files = page := by
  rcases h with h | ⟨t, ht, hitems⟩ | h
  · simp [on_page_content, h]
  · simp [on_page_content, ht, hitems]
  · cases htoc : page.toc with
    | none => simp [on_page_content, htoc]
    | some t =>
      cases hi : t.items with
      | nil => simp [on_page_content, htoc, hi]
      | cons first rest => simp [on_page_content, htoc, hi, h]

theorem toc_noop_witness :
    on_page_content "" ⟨none, []⟩ ⟨"", []⟩ [] = ⟨none, []⟩ :=
  toc_noop "" ⟨"", []⟩ [] ⟨none, []⟩ (Or.inl rfl)

/-- C4: when the hook does append, only the first top-level entry's child
list changes: the page metadata, the other top-level entries (count, order,
identity), the first entry's own title/anchor/level, and its pre-existing
children (as a prefix, in order) are all preserved, with exactly one child
gained. -/
theorem toc_frame (html : String) (config : Config) (files : List String)
    (meta : List (String × PyVal)) (first : AnchorLink)
    (rest : List AnchorLink)
    (hmeta : optTruthy (metaGet meta "comments") = true) :
    (on_page_content html ⟨some ⟨first :: rest⟩, meta⟩ config files).meta =
      meta ∧
    ∃ first2,
      (on_page_content html ⟨some ⟨first :: rest⟩, meta⟩ config files).toc =
        some ⟨first2 :: rest⟩ ∧
      first2.title = first.title ∧ first2.id = first.id ∧
      first2.level = first.level ∧
      first2.children.take first.children.length = first.children ∧
      first2.children.length = first.children.length + 1 := by
  rw [on_page_content_eq html config files meta first rest hmeta]
  refine ⟨rfl, { first with children := first.children ++
    [AnchorLink.new "Comments" "comments" 2] },
    rfl, rfl, rfl, rfl, ?_, ?_⟩
  · exact List.take_left _ _
  · simp

theorem toc_frame_witness :
    (on_page_content "" ⟨some ⟨[⟨"Intro", "intro", 1, []⟩]⟩,
        [("comments", PyVal.vBool true)]⟩ ⟨"", []⟩ []).meta =
      [("comments", PyVal.vBool true)] ∧
    ∃ first2,
      (on_page_content "" ⟨some ⟨[⟨"Intro", "intro", 1, []⟩]⟩,
          [("comments", PyVal.vBool true)]⟩ ⟨"", []⟩ []).toc =
        some ⟨[first2]⟩ ∧
      first2.title = "Intro" ∧ first2.id = "intro" ∧
      first2.level = 1 ∧
      first2.children.take 0 = ([] : List AnchorLink) ∧
      first2.children.length = 0 + 1 :=
  toc_frame "" ⟨"", []⟩ [] _ ⟨"Intro", "intro", 1, []⟩ [] rfl

/-- C5: the hook is not idempotent — on a qualifying page, running it twice
appends the "Comments" entry twice, so the first entry's child list ends in
two identical "Comments" entries. -/
theorem toc_not_idempotent (html : String) (config : Config)
    (files : List String) (meta : List (String × PyVal))
    (first : AnchorLink) (rest : List AnchorLink)
    (hmeta : optTruthy (metaGet meta "comments") = true) :
    on_page_content html
        (on_page_content html ⟨some ⟨first :: rest⟩, meta⟩ config files)
        config files =
      ⟨some ⟨{ first with children := first.children ++
          [AnchorLink.new "Comments" "comments" 2,
           AnchorLink.new "Comments" "comments" 2] } :: rest⟩, meta⟩ := by
  rw [on_page_content_eq html config files meta first rest hmeta,
    on_page_content_eq html config files meta _ rest hmeta]
  simp [List.append_assoc]

theorem toc_not_idempotent_witness :
    optTruthy (metaGet [("comments", PyVal.vBool true)] "comments") = true ∧
    on_page_content ""
        (on_page_content "" ⟨some ⟨[⟨"Intro", "intro", 1, []⟩]⟩,
          [("comments", PyVal.vBool true)]⟩ ⟨"", []⟩ [])
        ⟨"", []⟩ [] =
      ⟨some ⟨[⟨"Intro", "intro", 1,
          [AnchorLink.new "Comments" "comments" 2,
           AnchorLink.new "Comments" "comments" 2]⟩]⟩,
        [("comments", PyVal.vBool true)]⟩ :=
  ⟨rfl, toc_not_idempotent "" ⟨"", []⟩ [] _ _ _ rfl⟩

/-- C6: `on_config` is idempotent within a year — for a fixed current year
the copyright string written is the same whatever config it is given, and
applying it twice to the same config equals applying it once. -/
theorem copyright_idempotent_within_year (year : Nat) (c1 c2 : Config) :
    (on_config year c1).copyright = (on_config year c2).copyright ∧
    on_config year (on_config year c1) = on_config year c1 :=
  ⟨rfl, rfl⟩

/-- C7: `on_config` output differs across years — distinct current years
always give distinct copyright strings, whatever configs are processed. -/
theorem copyright_differs_across_years (y1 y2 : Nat) (c1 c2 : Config)
    (h : y1 ≠ y2) :
    (on_config y1 c1).copyright ≠ (on_config y2 c2).copyright := by
  intro heq
  apply h
  apply natRepr_injective
  have hd := congrArg String.data heq
  simp only [on_config, String.data_append] at hd
  have h2 : (toString y1).data = (toString y2).data :=
    List.append_cancel_left (List.append_cancel_right hd)
  exact String.ext h2

theorem copyright_differs_across_years_witness :
    (2024 : Nat) ≠ 2025 ∧
    (on_config 2024 ⟨"", []⟩).copyright ≠
      (on_config 2025 ⟨"", []⟩).copyright :=
  ⟨by decide, copyright_differs_across_years 2024 2025 ⟨"", []⟩ ⟨"", []⟩
    (by decide)⟩

/-- C8: the entry the hook appends is freshly constructed, so right after
the append the last child of the first top-level entry has no children. -/
theorem toc_new_entry_no_children (html : String) (config : Config)
    (files : List String) (meta : List (String × PyVal))
    (first : AnchorLink) (rest : List AnchorLink)
    (hmeta : optTruthy (metaGet meta "comments") = true) :
    ∃ first2 last2,
      (on_page_content html ⟨some ⟨first :: rest⟩, meta⟩ config files).toc =
        some ⟨first2 :: rest⟩ ∧
      first2.children.getLast? = some last2 ∧
      last2.children = [] := by
  rw [on_page_content_eq html config files meta first rest hmeta]
  exact ⟨_, AnchorLink.new "Comments" "comments" 2, rfl,
    List.getLast?_concat _, rfl⟩

theorem toc_new_entry_no_children_witness :
    ∃ first2 last2,
      (on_page_content "" ⟨some ⟨[⟨"Intro", "intro", 1, []⟩]⟩,
          [("comments", PyVal.vBool true)]⟩ ⟨"", []⟩ []).toc =
        some ⟨[first2]⟩ ∧
      first2.children.getLast? = some last2 ∧
      last2.children = [] :=
  toc_new_entry_no_children "" ⟨"", []⟩ [] _ ⟨"Intro", "intro", 1, []⟩ [] rfl

/-- C9: the page state produced by `on_page_content` depends only on the
page — the `html`, `config` and `files` arguments are never consulted. -/
theorem page_content_depends_only_on_page (p : Page) (h1 h2 : String)
    (c1 c2 : Config) (f1 f2 : List String) :
    on_page_content h1 p c1 f1 = on_page_content h2 p c2 f2 := rfl

/-- C10: the copyright value `on_config` writes is independent of the
config's prior state (including an already-set copyright), and no config
field other than `copyright` is touched. -/
theorem copyright_independent_of_prior_state (year : Nat) (c1 c2 : Config) :
    (on_config year c1).copyright = (on_config year c2).copyright ∧
    (on_config year c1).extra = c1.extra :=
  ⟨rfl, rfl⟩
